import Mathlib

/-!
Verification of the photo ingestion pipeline of the dogrod-studio repository.

The development shallowly embeds the TypeScript sources:
- the generic bounded-retry wrapper with full jitter (lib/async-retry);
- the histogram / dominant color utilities of the photo processors;
- the ingestion orchestrators processPhotoFromR2, reprocessPhoto and
  processPhotoUpload as state transformers over an explicit store
  (database tables plus the R2 object set), with the outcome of every
  effectful call supplied by an environment record;
- the background geocode enrichment task.

JavaScript numbers are modelled as exact rationals, Math.random() as an
explicitly supplied sequence of rationals in [0,1), thrown exceptions as
Except values, and supabase/R2 calls as environment-driven transitions.
-/

namespace DogrodStudio

/-! ### Retry wrapper (lib/async-retry)

Source: the async-retry module reproduced in
docs/changes/2025-12-06-duplicate-photo-detection.md.  The operation is
modelled as a function from the 0-indexed attempt number to an Except
value (ok on success, error message on a throw); Math.random() is the
sequence rand, indexed the same way.  maxAttempts is an Int because the
JS caller may pass any number; the for loop then runs toNat many times.
-/

/-- Discriminated result of withRetry: `{ success: true, data, attempts }`
or `{ success: false, error, attempts }`. -/
inductive RetryResult (α : Type) where
  | success (data : α) (attempts : Int)
  | failure (error : String) (attempts : Int)
deriving DecidableEq

/-- `computeDelayWithJitter(attempt, baseDelayMs, maxDelayMs)`:
`Math.random() * Math.min(baseDelayMs * 2 ** attempt, maxDelayMs)`,
with the random draw `rand` made explicit. -/
def computeDelayWithJitter (attempt : Nat) (baseDelayMs maxDelayMs rand : ℚ) : ℚ :=
  rand * min (baseDelayMs * 2 ^ attempt) maxDelayMs

/-- Observable trace of one withRetry run: the returned result, how many
times the wrapped operation was invoked, and the list of sleep durations
(delays.get? j is the sleep taken after the failure of attempt j, i.e.
immediately before attempt j+1). -/
structure RetryTrace (α : Type) where
  result : RetryResult α
  invocations : Nat
  delays : List ℚ
deriving DecidableEq

/-- The body of the withRetry for loop. `fuel` is the number of attempts
still allowed (initially maxAttempts.toNat), `attempt` the current
0-indexed loop counter, `lastError` the error recorded so far
(initially "No attempts made").  On a success the loop returns
attempts = attempt + 1; on the last failure it falls out of the loop and
returns attempts = maxAttempts; before any non-final retry it sleeps for
computeDelayWithJitter of the current (just failed) attempt index. -/
def withRetryGo (fn : Nat → Except String α) (rand : Nat → ℚ)
    (maxAttempts : Int) (baseDelayMs maxDelayMs : ℚ) :
    Nat → Nat → String → RetryTrace α
  | 0, _, lastError => ⟨.failure lastError maxAttempts, 0, []⟩
  | fuel + 1, attempt, _ =>
    match fn attempt with
    | .ok data => ⟨.success data (Int.ofNat (attempt + 1)), 1, []⟩
    | .error e =>
      if fuel = 0 then
        ⟨.failure e maxAttempts, 1, []⟩
      else
        let d := computeDelayWithJitter attempt baseDelayMs maxDelayMs (rand attempt)
        let rest := withRetryGo fn rand maxAttempts baseDelayMs maxDelayMs fuel (attempt + 1) e
        ⟨rest.result, rest.invocations + 1, d :: rest.delays⟩

/-- `withRetry(fn, { maxAttempts, baseDelayMs, maxDelayMs })`. -/
def withRetry (fn : Nat → Except String α) (rand : Nat → ℚ)
    (maxAttempts : Int) (baseDelayMs maxDelayMs : ℚ) : RetryTrace α :=
  withRetryGo fn rand maxAttempts baseDelayMs maxDelayMs maxAttempts.toNat 0
    "No attempts made"

/-! ### Pixel statistics (computeHistogram of the photo processors)

Source: computeHistogram in lib/uploads/photo-processor.ts and its
identical copy in the R2 photo processor.  The raw decoded buffer
(sharp .raw() output after removeAlpha) is a flat byte list `data`
walked with stride `info.channels`; each step reads data[i], data[i+1],
data[i+2] as r, g, b.  info.width and info.height come with the buffer.
-/

/-- `Math.round` on a non-negative JS number: round half up. -/
def jsRound (q : ℚ) : ℤ := ⌊q + 1 / 2⌋

/-- The per-pixel luma of the source loop:
`Math.max(0, Math.min(255, Math.round(0.2126*r + 0.7152*g + 0.0722*b)))`. -/
def lumaOf (r g b : Nat) : Nat :=
  (max 0 (min 255 (jsRound ((2126 / 10000) * r + (7152 / 10000) * g + (722 / 10000) * b)))).toNat

/-- The pixel triples visited by `for (let i = 0; i < data.length; i += channels)`:
each iteration reads the first three entries of the remaining buffer and
then advances by `channels`. -/
def pixelsOf (data : List Nat) (channels : Nat) : List (Nat × Nat × Nat) :=
  match data with
  | [] => []
  | r :: rest =>
      (r, rest.getD 0 0, rest.getD 1 0) :: pixelsOf (rest.drop (channels - 1)) channels
termination_by data.length
decreasing_by
  simp only [List.length_drop, List.length_cons]
  omega

/-- The four 256-bucket count arrays, modelled as count functions over
bucket indices. -/
structure HistCounts where
  countsLuma : Nat → Nat
  countsRed : Nat → Nat
  countsGreen : Nat → Nat
  countsBlue : Nat → Nat

/-- `counts[k] += 1`. -/
def bumpCount (f : Nat → Nat) (k : Nat) : Nat → Nat :=
  fun b => if b = k then f k + 1 else f b

/-- One iteration of the histogram loop body. -/
def histStep (st : HistCounts) (p : Nat × Nat × Nat) : HistCounts :=
  { countsLuma := bumpCount st.countsLuma (lumaOf p.1 p.2.1 p.2.2)
    countsRed := bumpCount st.countsRed p.1
    countsGreen := bumpCount st.countsGreen p.2.1
    countsBlue := bumpCount st.countsBlue p.2.2 }

/-- Result record of computeHistogram. -/
structure HistogramResult where
  countsLuma : Nat → Nat
  countsRed : Nat → Nat
  countsGreen : Nat → Nat
  countsBlue : Nat → Nat
  highlightsPct : ℚ
  shadowsPct : ℚ

/-- `computeHistogram(buffer)`, with the decoded raw buffer made explicit:
walks the buffer with stride channels filling the four bucket arrays,
then `highlightBins = countsLuma.slice(230)` (buckets 230..255),
`shadowBins = countsLuma.slice(0, 25)` (buckets 0..24), and the two
percentages over `totalPixels = info.width * info.height`, 0 when the
image is empty. -/
def computeHistogram (data : List Nat) (channels width height : Nat) : HistogramResult :=
  let counts := (pixelsOf data channels).foldl histStep
    ⟨fun _ => 0, fun _ => 0, fun _ => 0, fun _ => 0⟩
  let totalPixels := width * height
  let highlightCount := ∑ b in Finset.Ico 230 256, counts.countsLuma b
  let shadowCount := ∑ b in Finset.range 25, counts.countsLuma b
  { countsLuma := counts.countsLuma
    countsRed := counts.countsRed
    countsGreen := counts.countsGreen
    countsBlue := counts.countsBlue
    highlightsPct := if 0 < totalPixels then (highlightCount : ℚ) / totalPixels * 100 else 0
    shadowsPct := if 0 < totalPixels then (shadowCount : ℚ) / totalPixels * 100 else 0 }

/-! ### Dominant color formatting (rgbToHex)

Source: rgbToHex in both photo processors:
`toHex = (n) => Math.round(n).toString(16).padStart(2, "0")`,
result `#` ++ toHex r ++ toHex g ++ toHex b.  The claims quantify over
integer channel values, on which Math.round is the identity, so the
channels are Nat here; strings are lists of characters.
Nat.toDigits 16 matches Number.prototype.toString(16) on naturals
(lowercase digits, "0" for 0). -/

/-- `String.prototype.padStart(len, c)`. -/
def jsPadStart (s : List Char) (len : Nat) (c : Char) : List Char :=
  List.replicate (len - s.length) c ++ s

/-- `(n) => Math.round(n).toString(16).padStart(2, "0")` on an integer input. -/
def toHexChannel (n : Nat) : List Char :=
  jsPadStart (Nat.toDigits 16 n) 2 '0'

/-- `rgbToHex(r, g, b)`. -/
def rgbToHex (r g b : Nat) : List Char :=
  '#' :: (toHexChannel r ++ toHexChannel g ++ toHexChannel b)

/-- Lowercase hexadecimal digit. -/
def isLowerHexDigit (c : Char) : Bool :=
  ("0123456789abcdef".toList).contains c

/-! ### Persistent store

The database tables touched by the pipeline plus the set of R2 object
keys.  Rows carry the columns the verified claims speak about; the
remaining columns (title, dimensions, checksums, audit fields, ...)
are data threaded through unchanged and are elided. -/

/-- One row of the photos table (claim-relevant columns). -/
structure PhotoRow where
  id : String
  asset_original_id : String
  status : String
  visibility : String
  is_visible : Bool
  dominant_color : Option String
  blurhash : Option String
deriving DecidableEq

/-- One row of the assets table. -/
structure AssetRow where
  id : String
deriving DecidableEq

/-- One row of the photo_rendition table; key is the R2 object key its
url column points at. -/
structure RenditionRow where
  photo_id : String
  variant_name : String
  key : String
deriving DecidableEq

/-- One row of the photo_exif table. -/
structure ExifRow where
  photo_id : String
deriving DecidableEq

/-- One row of the photo_histogram table. -/
structure HistogramRow where
  photo_id : String
deriving DecidableEq

/-- Database tables plus blob storage. r2 is the list of object keys
present in the bucket. -/
structure Store where
  assets : List AssetRow
  photos : List PhotoRow
  photo_exif : List ExifRow
  photo_rendition : List RenditionRow
  photo_histogram : List HistogramRow
  r2 : List String
deriving DecidableEq

/-- The three rendition tiers, in processing order. -/
def renditionNames : List String := ["thumb", "list", "detail"]

/-- `photos/<storageId>/<variant>.jpg`. -/
def renditionKey (storageId name : String) : String :=
  "photos/" ++ storageId ++ "/" ++ name ++ ".jpg"

/-- `putObject`: the key becomes present in the bucket. -/
def putR2Object (key : String) (st : Store) : Store :=
  { st with r2 := st.r2 ++ [key] }

/-- `cleanupR2Object(key)`: best-effort delete of one object. -/
def cleanupR2Object (key : String) (st : Store) : Store :=
  { st with r2 := st.r2.filter (fun k => k ≠ key) }

/-- `deleteR2Objects(keys)`: best-effort delete of each key. -/
def deleteR2Objects (keys : List String) (st : Store) : Store :=
  { st with r2 := st.r2.filter (fun k => ¬ k ∈ keys) }

/-- `cleanupPhotoRecords(supabase, photoId, assetId)`: deletes the
photo_histogram, photo_rendition and photo_exif rows of the photo, the
photos row and the assets row, in that order. -/
def cleanupPhotoRecords (photoId assetId : String) (st : Store) : Store :=
  { st with
    photo_histogram := st.photo_histogram.filter (fun r => r.photo_id ≠ photoId)
    photo_rendition := st.photo_rendition.filter (fun r => r.photo_id ≠ photoId)
    photo_exif := st.photo_exif.filter (fun r => r.photo_id ≠ photoId)
    photos := st.photos.filter (fun r => r.id ≠ photoId)
    assets := st.assets.filter (fun r => r.id ≠ assetId) }

/-! ### processPhotoFromR2

The R2 ingestion orchestrator as a state transformer.  Every effectful
call outcome is supplied by the environment: readOk is the overall
outcome of the phase-1 withRetry, uploadOk the post-retry outcome of
each rendition upload, the *Fails flags are supabase errors, and the
derived values (dominantColor, blurhash) are the results of the pure
sharp computations.  The function returns the thrown error or the
ProcessedPhotoResult, together with the final store. -/

/-- Outcomes of the effectful calls of one processPhotoFromR2 run. -/
structure R2RunEnv where
  readOk : Bool
  dimsOk : Bool
  typeOk : Bool
  hasExif : Bool
  assetInsertFails : Bool
  photoInsertFails : Bool
  exifInsertFails : Bool
  uploadOk : String → Bool
  renditionInsertFails : Bool
  histogramInsertFails : Bool
  updateFails : Bool
  dominantColor : String
  blurhash : String

/-- Identifiers of one run. -/
structure RunContext where
  storageId : String
  originalKey : String
  photoId : String
  assetId : String
deriving DecidableEq

/-- Return value `{ photoId, detailUrl }`; the url is carried as the
detail rendition key. -/
structure ProcessedPhotoResult where
  photoId : String
  detailUrl : String
deriving DecidableEq

/-- Phase 5 upload loop: uploads each rendition in order with the
wrapped retry policy; stops at the first rendition whose retries are
exhausted, returning its name and the store holding the blobs uploaded
so far. -/
def uploadRenditionsLoop (uploadOk : String → Bool) (storageId : String) :
    List String → Store → Option String × Store
  | [], st => (none, st)
  | name :: rest, st =>
    if uploadOk name then
      uploadRenditionsLoop uploadOk storageId rest (putR2Object (renditionKey storageId name) st)
    else
      (some name, st)

/-- The photos row inserted in phase 3: draft, private, invisible, no
derived fields. -/
def baselinePhotoRow (ctx : RunContext) : PhotoRow :=
  { id := ctx.photoId
    asset_original_id := ctx.assetId
    status := "draft"
    visibility := "private"
    is_visible := false
    dominant_color := none
    blurhash := none }

/-- The phase-7 update applied to the photos row: sets the derived
fields and flips the record to published / public / visible. -/
def publishUpdate (env : R2RunEnv) (r : PhotoRow) : PhotoRow :=
  { r with
    dominant_color := some env.dominantColor
    blurhash := some env.blurhash
    status := "published"
    visibility := "public"
    is_visible := true }

/-- Phases 5-7 of processPhotoFromR2, entered with the store of phase 3
in hand: upload the renditions serially with retry (aborting with full
rollback on exhaustion), then insert the rendition rows, the histogram
row, and apply the publish update, each tolerated on failure. -/
def r2UploadAndFinalize (env : R2RunEnv) (ctx : RunContext) (st3 : Store) :
    Except String ProcessedPhotoResult × Store :=
  match uploadRenditionsLoop env.uploadOk ctx.storageId renditionNames st3 with
  | (some failedName, st4) =>
    -- A rendition exhausted its retries: delete the baseline database
    -- rows, then the original blob and every rendition blob of this
    -- run, and surface the error
    (.error ("Failed to upload " ++ failedName ++ " rendition"),
      deleteR2Objects
        (ctx.originalKey :: renditionNames.map (renditionKey ctx.storageId))
        (cleanupPhotoRecords ctx.photoId ctx.assetId st4))
  | (none, st4) =>
    -- Phase 5: insert the photo_rendition rows; failure tolerated
    let st5 :=
      if env.renditionInsertFails then st4
      else
        { st4 with photo_rendition := st4.photo_rendition ++
            (renditionNames.map (fun n => RenditionRow.mk ctx.photoId n (renditionKey ctx.storageId n))) }
    -- Phase 7: insert photo_histogram row; failure tolerated
    let st6 :=
      if env.histogramInsertFails then st5
      else { st5 with photo_histogram := st5.photo_histogram ++ [HistogramRow.mk ctx.photoId] }
    -- Phase 7: update the photos row with the derived fields and
    -- publish; failure tolerated
    let st7 :=
      if env.updateFails then st6
      else
        { st6 with photos :=
            st6.photos.map (fun r => if r.id = ctx.photoId then publishUpdate env r else r) }
    (.ok ⟨ctx.photoId, renditionKey ctx.storageId "detail"⟩, st7)

/-- `processPhotoFromR2(context)`. -/
def processPhotoFromR2 (env : R2RunEnv) (ctx : RunContext) (st0 : Store) :
    Except String ProcessedPhotoResult × Store :=
  -- Phase 1: read original from R2 with retry
  if env.readOk = false then
    (.error "Failed to read original file from R2", st0)
  -- Phase 2: decode, validate dimensions and type
  else if env.dimsOk = false then
    (.error "Unable to read image dimensions.", cleanupR2Object ctx.originalKey st0)
  else if env.typeOk = false then
    (.error "Unsupported file type. Allowed: JPEG, PNG, WebP.", cleanupR2Object ctx.originalKey st0)
  -- Phase 3: insert assets row
  else if env.assetInsertFails then
    (.error "Failed to insert asset", cleanupR2Object ctx.originalKey st0)
  else
    let st1 := { st0 with assets := st0.assets ++ [AssetRow.mk ctx.assetId] }
    -- Phase 3: insert photos row (draft)
    if env.photoInsertFails then
      (.error "Failed to insert photo",
        cleanupR2Object ctx.originalKey
          { st1 with assets := st1.assets.filter (fun r => r.id ≠ ctx.assetId) })
    else
      let st2 := { st1 with photos := st1.photos ++ [baselinePhotoRow ctx] }
      -- Phase 3: insert photo_exif row when EXIF was parsed; insert
      -- failure is logged and tolerated
      let st3 :=
        if env.hasExif = true ∧ env.exifInsertFails = false then
          { st2 with photo_exif := st2.photo_exif ++ [ExifRow.mk ctx.photoId] }
        else st2
      -- Phase 4 generates the renditions in memory (pure); phases 5-7
      r2UploadAndFinalize env ctx st3

/-! ### reprocessPhoto

Re-enters the pipeline at the rendition phase for an existing photo:
fetches the row, recovers the storage id from the asset url, re-reads
the original with retry, deletes the existing rendition blobs and the
photo_rendition / photo_histogram rows, regenerates and re-uploads the
renditions (a permanent upload failure is fatal but performs no
database cleanup), re-inserts the rows and re-runs the publish update.
The photos table itself is only touched by the final update. -/

/-- Outcomes of the effectful calls of one reprocessPhoto run. -/
structure ReprocessEnv where
  fetchOk : Bool
  assetOk : Bool
  urlOk : Bool
  readOk : Bool
  uploadOk : String → Bool
  renditionInsertFails : Bool
  histogramInsertFails : Bool
  updateFails : Bool
  dominantColor : String
  blurhash : String

/-- The phase-7 update of reprocessPhoto (same columns as the R2 path). -/
def reprocessPublishUpdate (env : ReprocessEnv) (r : PhotoRow) : PhotoRow :=
  { r with
    dominant_color := some env.dominantColor
    blurhash := some env.blurhash
    status := "published"
    visibility := "public"
    is_visible := true }

/-- Steps 5-7 of reprocessPhoto, entered after the old rows and blobs
were deleted: upload the regenerated renditions serially with retry (a
permanent failure is fatal but performs no database cleanup), then
re-insert the rows and re-run the publish update, each tolerated on
failure. -/
def reprocessUploadAndFinalize (env : ReprocessEnv) (photoId storageId : String) (st2 : Store) :
    Except String ProcessedPhotoResult × Store :=
  match uploadRenditionsLoop env.uploadOk storageId renditionNames st2 with
  | (some failedName, st3) =>
    (.error ("Failed to upload " ++ failedName ++ " rendition"), st3)
  | (none, st3) =>
    let st4 :=
      if env.renditionInsertFails then st3
      else
        { st3 with photo_rendition := st3.photo_rendition ++
            (renditionNames.map (fun n => RenditionRow.mk photoId n (renditionKey storageId n))) }
    let st5 :=
      if env.histogramInsertFails then st4
      else { st4 with photo_histogram := st4.photo_histogram ++ [HistogramRow.mk photoId] }
    let st6 :=
      if env.updateFails then st5
      else
        { st5 with photos :=
            st5.photos.map (fun r => if r.id = photoId then reprocessPublishUpdate env r else r) }
    (.ok ⟨photoId, renditionKey storageId "detail"⟩, st6)

/-- `reprocessPhoto(context)`. -/
def reprocessPhoto (env : ReprocessEnv) (photoId storageId : String) (st0 : Store) :
    Except String ProcessedPhotoResult × Store :=
  -- Step 1: fetch photo joined with its asset, parse the storage id
  if env.fetchOk = false ∨ (st0.photos.find? (fun r => r.id = photoId)).isNone then
    (.error "Photo not found", st0)
  else if env.assetOk = false then
    (.error "Original asset not found for this photo", st0)
  else if env.urlOk = false then
    (.error "Cannot determine storage ID from asset URL", st0)
  -- Step 2: read original from R2 with retry
  else if env.readOk = false then
    (.error "Failed to read original file from R2", st0)
  else
    -- Step 3: delete the existing rendition blobs, then the
    -- photo_rendition and photo_histogram rows
    let existingKeys :=
      (st0.photo_rendition.filter (fun r => r.photo_id = photoId)).map (fun r => r.key)
    let st1 := deleteR2Objects existingKeys st0
    let st2 :=
      { st1 with
        photo_rendition := st1.photo_rendition.filter (fun r => r.photo_id ≠ photoId)
        photo_histogram := st1.photo_histogram.filter (fun r => r.photo_id ≠ photoId) }
    -- Step 4 regenerates the renditions (pure); steps 5-7
    reprocessUploadAndFinalize env photoId storageId st2

/-! ### processPhotoUpload

The server-mediated upload path (lib/uploads/photo-processor.ts):
generates the renditions and the derived pixel statistics up front,
uploads the blobs, then inserts the rows inside a try block whose catch
runs the accumulated cleanup tasks in reverse and deletes the uploaded
blobs.  The photos row is inserted directly with status published,
dominant_color set from computeDominantColor, and blurhash: null (this
path computes no blurhash). -/

/-- Outcomes of the effectful calls of one processPhotoUpload run.  The
insert flags model the insert statements throwing (the only way the
catch block triggers). -/
structure UploadEnv where
  dimsOk : Bool
  typeOk : Bool
  hasExif : Bool
  uploadOriginalOk : Bool
  uploadRenditionsOk : Bool
  assetInsertThrows : Bool
  photoInsertThrows : Bool
  renditionInsertThrows : Bool
  exifInsertThrows : Bool
  histogramInsertThrows : Bool
  dominantColor : String

/-- The photos row inserted by processPhotoUpload: already published
and visible, dominant_color from computeDominantColor, blurhash null. -/
def uploadPhotoRow (ctx : RunContext) (env : UploadEnv) : PhotoRow :=
  { id := ctx.photoId
    asset_original_id := ctx.assetId
    status := "published"
    visibility := "public"
    is_visible := true
    dominant_color := some env.dominantColor
    blurhash := none }

/-- The catch block of processPhotoUpload: runs the pushed cleanup
tasks in reverse order (delete photos row if pushed, delete assets row
if pushed), then deleteR2Objects over the original and all rendition
keys. -/
def uploadCatch (ctx : RunContext) (deletePhoto deleteAsset : Bool) (st : Store) : Store :=
  let stA := if deletePhoto then { st with photos := st.photos.filter (fun r => r.id ≠ ctx.photoId) } else st
  let stB := if deleteAsset then { stA with assets := stA.assets.filter (fun r => r.id ≠ ctx.assetId) } else stA
  deleteR2Objects (ctx.originalKey :: renditionNames.map (renditionKey ctx.storageId)) stB

/-- `processPhotoUpload({ file, userId })`. -/
def processPhotoUpload (env : UploadEnv) (ctx : RunContext) (st0 : Store) :
    Except String ProcessedPhotoResult × Store :=
  -- decode and validate (before any durable state)
  if env.dimsOk = false then
    (.error "Unable to read image dimensions.", st0)
  else if env.typeOk = false then
    (.error "Unsupported file type. Allowed: JPEG, PNG, WebP.", st0)
  -- renditions, histogram, dominant color and EXIF are computed in
  -- memory; then the original and the renditions are uploaded (outside
  -- the try block: a failure here propagates with no cleanup)
  else if env.uploadOriginalOk = false then
    (.error "upload original failed", st0)
  else
    let st1 := putR2Object ctx.originalKey st0
    if env.uploadRenditionsOk = false then
      (.error "upload renditions failed", st1)
    else
      let st2 := (renditionNames.map (renditionKey ctx.storageId)).foldl
        (fun st key => putR2Object key st) st1
      -- try block: the database inserts
      if env.assetInsertThrows then
        (.error "insert assets failed", uploadCatch ctx false false st2)
      else
        let st3 := { st2 with assets := st2.assets ++ [AssetRow.mk ctx.assetId] }
        if env.photoInsertThrows then
          (.error "insert photos failed", uploadCatch ctx false true st3)
        else
          let st4 := { st3 with photos := st3.photos ++ [uploadPhotoRow ctx env] }
          if env.renditionInsertThrows then
            (.error "insert photo_rendition failed", uploadCatch ctx true true st4)
          else
            let st5 := { st4 with photo_rendition := st4.photo_rendition ++
                (renditionNames.map (fun n => RenditionRow.mk ctx.photoId n (renditionKey ctx.storageId n))) }
            if env.hasExif = true ∧ env.exifInsertThrows = true then
              (.error "insert photo_exif failed", uploadCatch ctx true true st5)
            else
              let st6 :=
                if env.hasExif = true then
                  { st5 with photo_exif := st5.photo_exif ++ [ExifRow.mk ctx.photoId] }
                else st5
              if env.histogramInsertThrows then
                (.error "insert photo_histogram failed", uploadCatch ctx true true st6)
              else
                let st7 := { st6 with photo_histogram := st6.photo_histogram ++ [HistogramRow.mk ctx.photoId] }
                (.ok ⟨ctx.photoId, renditionKey ctx.storageId "detail"⟩, st7)

/-! ### needsReprocessing

Two helpers of this name exist.  The library export of the R2 photo
processor receives only status, blurhash and dominant_color; the admin
UI component receives in addition hasHistogram and hasRenditions and
gates the operator reprocess action. -/

/-- JS truthiness of a nullable string (null and "" are falsy). -/
def strTruthy : Option String → Bool
  | none => false
  | some s => decide (s ≠ "")

/-- `needsReprocessing(photo)` exported by the R2 photo processor:
true when status is not published or blurhash / dominant_color is
falsy. -/
def needsReprocessing (status : String) (blurhash dominant_color : Option String) : Bool :=
  if status ≠ "published" then true
  else if ¬ strTruthy blurhash ∨ ¬ strTruthy dominant_color then true
  else false

namespace ProcessingStatus

/-- `needsReprocessing(props)` of the admin photo-processing-status
component: additionally true when the histogram or the renditions are
missing. -/
def needsReprocessing (status : String) (blurhash dominantColor : Option String)
    (hasHistogram hasRenditions : Bool) : Bool :=
  if status ≠ "published" then true
  else if ¬ strTruthy blurhash ∨ ¬ strTruthy dominantColor then true
  else if ¬ hasHistogram ∨ ¬ hasRenditions then true
  else false

end ProcessingStatus

/-! ### Background geocode task

lib/tasks/geocode-photo.ts.  The task reads the current photo
location fields, skips when the Mapbox token is unconfigured or every
field is populated, calls reverseGeocode through withRetry otherwise,
and updates only the fields that were still empty at read-back time
(audit columns updated_at / updated_by are elided). -/

/-- The four location fields of a photos row as read back by the task. -/
structure LocationFields where
  country : Option String
  region : Option String
  city : Option String
  place_name : Option String
deriving DecidableEq

/-- A reverse-geocoding result. -/
structure GeocodedLocation where
  country : Option String
  region : Option String
  city : Option String
  placeName : Option String
deriving DecidableEq

/-- `needsGeocoding(photo)`: some location field is falsy. -/
def needsGeocoding (p : LocationFields) : Bool :=
  ¬ strTruthy p.country ∨ ¬ strTruthy p.region ∨ ¬ strTruthy p.city ∨ ¬ strTruthy p.place_name

/-- The location part of the update payload built by
`buildUpdatePayload(existing, geocoded, userId)`: a field is included
exactly when it is falsy in the read-back state and truthy in the
geocoding result. -/
structure UpdatePayload where
  country : Option String
  region : Option String
  city : Option String
  place_name : Option String
deriving DecidableEq

/-- `buildUpdatePayload(existing, geocoded, userId)` (location fields). -/
def buildUpdatePayload (existing : LocationFields) (geocoded : GeocodedLocation) : UpdatePayload :=
  { country := if ¬ strTruthy existing.country ∧ strTruthy geocoded.country then geocoded.country else none
    region := if ¬ strTruthy existing.region ∧ strTruthy geocoded.region then geocoded.region else none
    city := if ¬ strTruthy existing.city ∧ strTruthy geocoded.city then geocoded.city else none
    place_name := if ¬ strTruthy existing.place_name ∧ strTruthy geocoded.placeName then geocoded.placeName else none }

/-- `hasLocationUpdates`: some key beyond the audit fields is present. -/
def hasLocationUpdates (u : UpdatePayload) : Bool :=
  u.country.isSome ∨ u.region.isSome ∨ u.city.isSome ∨ u.place_name.isSome

/-- Observable behaviour of one executeGeocodeTask run: whether the
external reverse-geocoding service was called, and the update issued
to the photos table (none when no update statement ran). -/
structure GeocodeOutcome where
  externalCall : Bool
  update : Option UpdatePayload
deriving DecidableEq

/-- `executeGeocodeTask(params)`; tokenConfigured is the presence of
MAPBOX_ACCESS_TOKEN, fetched the (possibly failed) read-back of the
location fields of the photo, geo the result of the withRetry-wrapped
reverseGeocode call (consulted only if the call is reached). -/
def executeGeocodeTask (tokenConfigured : Bool) (fetched : Option LocationFields)
    (geo : RetryResult (Option GeocodedLocation)) : Except String GeocodeOutcome :=
  if tokenConfigured = false then
    .ok ⟨false, none⟩
  else
    match fetched with
    | none => .error "Failed to fetch photo"
    | some photo =>
      if needsGeocoding photo = false then
        .ok ⟨false, none⟩
      else
        match geo with
        | .failure e _ => .error e
        | .success none _ => .ok ⟨true, none⟩
        | .success (some g) _ =>
          let updates := buildUpdatePayload photo g
          if hasLocationUpdates updates then .ok ⟨true, some updates⟩
          else .ok ⟨true, none⟩

/-! ## Lemmas about the retry wrapper -/

theorem withRetryGo_invocations_le (fn : Nat → Except String α) (rand : Nat → ℚ)
    (m : Int) (b x : ℚ) :
    ∀ fuel attempt e, (withRetryGo fn rand m b x fuel attempt e).invocations ≤ fuel := by
  intro fuel
  induction fuel with
  | zero => intro attempt e; simp [withRetryGo]
  | succ f ih =>
    intro attempt e
    rw [withRetryGo]
    rcases h : fn attempt with e' | a
    · by_cases hf : f = 0
      · simp [hf]
      · simp only [if_neg hf]
        have := ih (attempt + 1) e'
        simpa using Nat.succ_le_succ this
    · simp

theorem withRetryGo_delays (fn : Nat → Except String α) (rand : Nat → ℚ)
    (m : Int) (b x : ℚ) :
    ∀ fuel attempt e j d,
      (withRetryGo fn rand m b x fuel attempt e).delays.get? j = some d →
      d = computeDelayWithJitter (attempt + j) b x (rand (attempt + j)) := by
  intro fuel
  induction fuel with
  | zero => intro attempt e j d h; simp [withRetryGo] at h
  | succ f ih =>
    intro attempt e j d h
    rw [withRetryGo] at h
    rcases hfn : fn attempt with e' | a <;> rw [hfn] at h
    · by_cases hf : f = 0
      · simp [hf] at h
      · simp only [if_neg hf] at h
        cases j with
        | zero =>
          simp at h
          simpa using h.symm
        | succ j' =>
          simp only [List.get?_cons_succ] at h
          have := ih (attempt + 1) e' j' d h
          rw [show attempt + (j' + 1) = attempt + 1 + j' from by omega]
          exact this
    · simp at h

theorem withRetryGo_first_success (fn : Nat → Except String α) (rand : Nat → ℚ)
    (m : Int) (b x : ℚ) :
    ∀ k fuel attempt e a, k < fuel → fn (attempt + k) = .ok a →
      (∀ i, i < k → ∃ er, fn (attempt + i) = .error er) →
      (withRetryGo fn rand m b x fuel attempt e).result
          = .success a (Int.ofNat (attempt + k + 1)) ∧
        (withRetryGo fn rand m b x fuel attempt e).invocations = k + 1 := by
  intro k
  induction k with
  | zero =>
    intro fuel attempt e a hk hok _
    obtain ⟨f, rfl⟩ : ∃ f, fuel = f + 1 := ⟨fuel - 1, by omega⟩
    rw [withRetryGo]
    simp only [Nat.add_zero] at hok
    rw [hok]
    simp
  | succ k' ih =>
    intro fuel attempt e a hk hok hfail
    obtain ⟨f, rfl⟩ : ∃ f, fuel = f + 1 := ⟨fuel - 1, by omega⟩
    obtain ⟨er, her⟩ := hfail 0 (Nat.succ_pos k')
    rw [withRetryGo]
    simp only [Nat.add_zero] at her
    rw [her]
    have hf : f ≠ 0 := by omega
    simp only [if_neg hf]
    have harg : attempt + 1 + k' = attempt + (k' + 1) := by omega
    have := ih f (attempt + 1) er a (by omega) (by rw [harg]; exact hok)
      (by
        intro i hi
        obtain ⟨er', her'⟩ := hfail (i + 1) (by omega)
        exact ⟨er', by rw [show attempt + 1 + i = attempt + (i + 1) by omega]; exact her'⟩)
    rw [show attempt + (k' + 1) + 1 = attempt + 1 + k' + 1 from by omega]
    exact ⟨by simp [this.1], by simp [this.2]⟩

theorem withRetryGo_exhausted (fn : Nat → Except String α) (rand : Nat → ℚ)
    (m : Int) (b x : ℚ) :
    ∀ fuel attempt e, (∀ i, i < fuel → ∃ er, fn (attempt + i) = .error er) →
      ∃ er, (withRetryGo fn rand m b x fuel attempt e).result = .failure er m ∧
        (withRetryGo fn rand m b x fuel attempt e).invocations = fuel := by
  intro fuel
  induction fuel with
  | zero => intro attempt e _; exact ⟨e, by simp [withRetryGo]⟩
  | succ f ih =>
    intro attempt e hfail
    obtain ⟨er, her⟩ := hfail 0 (Nat.succ_pos f)
    rw [withRetryGo]
    simp only [Nat.add_zero] at her
    rw [her]
    by_cases hf : f = 0
    · exact ⟨er, by simp [hf]⟩
    · simp only [if_neg hf]
      obtain ⟨er', h1, h2⟩ := ih (attempt + 1) er
        (by
          intro i hi
          obtain ⟨er'', her''⟩ := hfail (i + 1) (by omega)
          exact ⟨er'', by rw [show attempt + 1 + i = attempt + (i + 1) by omega]; exact her''⟩)
      exact ⟨er', by simpa using h1, by simpa using h2⟩

/-- C5: withRetry invokes the wrapped operation at most maxAttempts
times and always returns a discriminated result: success with the data
and attempts = k + 1 at the first successful invocation k, or failure
with the last error and attempts = maxAttempts after exhausting every
attempt.  The Lean model is a total function, so no exception escapes
regardless of how the wrapped operation fails (every throw is a value
of the error branch). -/
theorem withRetry_contract (fn : Nat → Except String α) (rand : Nat → ℚ)
    (m : Int) (b x : ℚ) :
    (withRetry fn rand m b x).invocations ≤ m.toNat ∧
    (∀ k a, k < m.toNat → fn k = .ok a → (∀ i, i < k → ∃ er, fn i = .error er) →
      (withRetry fn rand m b x).result = .success a (Int.ofNat (k + 1)) ∧
        (withRetry fn rand m b x).invocations = k + 1) ∧
    ((∀ i, i < m.toNat → ∃ er, fn i = .error er) →
      ∃ er, (withRetry fn rand m b x).result = .failure er m ∧
        (withRetry fn rand m b x).invocations = m.toNat) := by
  refine ⟨withRetryGo_invocations_le fn rand m b x m.toNat 0 "No attempts made", ?_, ?_⟩
  · intro k a hk hok hfail
    have := withRetryGo_first_success fn rand m b x k m.toNat 0 "No attempts made" a hk
      (by simpa using hok) (by simpa using hfail)
    simpa [withRetry] using this
  · intro hfail
    have := withRetryGo_exhausted fn rand m b x m.toNat 0 "No attempts made"
      (by simpa using hfail)
    simpa [withRetry] using this

/-- Concrete instantiation of the C5 contract: an operation that fails
once and then succeeds, run with maxAttempts 3, succeeds with
attempts = 2 after exactly 2 invocations. -/
theorem withRetry_contract_witness :
    (withRetry (fun i => if i = 1 then .ok 7 else .error "boom") (fun _ => 1 / 2)
        3 500 10000).result = .success 7 (Int.ofNat 2) ∧
      (withRetry (fun i => if i = 1 then .ok 7 else .error "boom") (fun _ => 1 / 2)
        3 500 10000).invocations = 2 :=
  (withRetry_contract (fun i => if i = 1 then .ok 7 else .error "boom") (fun _ => 1 / 2)
      3 500 10000).2.1 1 7 (by decide) (by rfl)
    (by
      intro i hi
      interval_cases i
      exact ⟨"boom", rfl⟩)

/-- C10: with maxAttempts ≤ 0 the wrapped operation is never invoked
and withRetry returns the failure result carrying the sentinel
"No attempts made" error and attempts = maxAttempts. -/
theorem withRetry_nonpositive_maxAttempts (fn : Nat → Except String α) (rand : Nat → ℚ)
    (m : Int) (b x : ℚ) (hm : m ≤ 0) :
    withRetry fn rand m b x = ⟨.failure "No attempts made" m, 0, []⟩ := by
  have : m.toNat = 0 := Int.toNat_of_nonpos hm
  rw [withRetry, this, withRetryGo]

/-- Concrete instantiation of C10 at maxAttempts = 0. -/
theorem withRetry_nonpositive_maxAttempts_witness :
    withRetry (fun _ => (.ok 1 : Except String Nat)) (fun _ => 1 / 2) 0 500 5000
      = ⟨.failure "No attempts made" 0, 0, []⟩ :=
  withRetry_nonpositive_maxAttempts _ _ 0 _ _ (by decide)

/-- C4 counterexample: with baseDelayMs = 500, maxDelayMs = 10000 and
the random draw fixed at 1/2, the delay withRetry sleeps before
attempt 1 (0-indexed) is 250 = (1/2)·min(500·2^0, 10000), not
(1/2)·min(500·2^1, 10000) = 500 as the claimed cap base·2^k would
give. -/
theorem withRetry_delay_counterexample :
    (withRetry (fun _ => (.error "x" : Except String Nat)) (fun _ => 1 / 2)
        3 500 10000).delays.get? 0 = some 250 ∧
      ((1 : ℚ) / 2) * min ((500 : ℚ) * 2 ^ 1) 10000 = 500 ∧ (250 : ℚ) ≠ 500 := by
  refine ⟨?_, by norm_num, by norm_num⟩
  simp [withRetry, withRetryGo, computeDelayWithJitter]
  norm_num

/-- C4 (amended): the delay withRetry sleeps before attempt k
(0-indexed, k ≥ 1) equals rand(k−1) · min(maxDelayMs, baseDelayMs ·
2^(k−1)) — the jitter is computed from the index of the attempt that
just failed — and, with the random draw in [0,1) and non-negative
configuration, lies in [0, min(maxDelayMs, baseDelayMs · 2^(k−1))].
delays.get? (k−1) is the sleep immediately preceding attempt k. -/
theorem withRetry_delay_jitter (fn : Nat → Except String α) (rand : Nat → ℚ)
    (m : Int) (b x : ℚ) (j : Nat) (d : ℚ)
    (h : (withRetry fn rand m b x).delays.get? j = some d) :
    d = rand j * min (b * 2 ^ j) x ∧
      (0 ≤ rand j → rand j < 1 → 0 ≤ b → 0 ≤ x → 0 ≤ d ∧ d ≤ min (b * 2 ^ j) x) := by
  have hd := withRetryGo_delays fn rand m b x m.toNat 0 "No attempts made" j d h
  simp only [Nat.zero_add] at hd
  rw [computeDelayWithJitter] at hd
  refine ⟨hd, ?_⟩
  intro h0 h1 hb hx
  have hcap : 0 ≤ min (b * 2 ^ j) x := le_min (by positivity) hx
  constructor
  · rw [hd]; exact mul_nonneg h0 hcap
  · rw [hd]
    calc rand j * min (b * 2 ^ j) x ≤ 1 * min (b * 2 ^ j) x :=
          mul_le_mul_of_nonneg_right (le_of_lt h1) hcap
      _ = min (b * 2 ^ j) x := one_mul _

/-- Concrete instantiation of the amended C4: the sleep before attempt
1 of the counterexample run is (1/2)·min(500·2^0, 10000) = 250 and lies
in [0, 500]. -/
theorem withRetry_delay_jitter_witness :
    (250 : ℚ) = (1 / 2 : ℚ) * min ((500 : ℚ) * 2 ^ 0) 10000 ∧
      (0 : ℚ) ≤ 250 ∧ (250 : ℚ) ≤ min ((500 : ℚ) * 2 ^ 0) 10000 := by
  have h := withRetry_delay_jitter (fun _ => (.error "x" : Except String Nat))
    (fun _ => 1 / 2) 3 500 10000 0 250
    (by simp [withRetry, withRetryGo, computeDelayWithJitter]; norm_num)
  have hb := h.2 (by norm_num) (by norm_num) (by norm_num) (by norm_num)
  exact ⟨by simpa using h.1, hb.1, hb.2⟩

/-! ## Lemmas about the histogram -/

theorem lumaOf_lt_256 (r g b : Nat) : lumaOf r g b < 256 := by
  rw [lumaOf]
  have h : max 0 (min 255 (jsRound ((2126 / 10000) * r + (7152 / 10000) * g + (722 / 10000) * b))) ≤ 255 := by
    omega
  omega

theorem bumpCount_apply (f : Nat → Nat) (k b : Nat) :
    bumpCount f k b = f b + if k = b then 1 else 0 := by
  rw [bumpCount]
  by_cases h : b = k
  · subst h; simp
  · have h' : ¬ k = b := fun hkb => h hkb.symm
    simp [h, h']

/-- The luma key of a pixel triple. -/
def lumaKey (p : Nat × Nat × Nat) : Nat := lumaOf p.1 p.2.1 p.2.2

theorem foldl_histStep_counts (ps : List (Nat × Nat × Nat)) :
    ∀ (init : HistCounts) (b : Nat),
      (ps.foldl histStep init).countsLuma b
          = init.countsLuma b + ps.countP (fun p => lumaKey p = b) ∧
      (ps.foldl histStep init).countsRed b
          = init.countsRed b + ps.countP (fun p => p.1 = b) ∧
      (ps.foldl histStep init).countsGreen b
          = init.countsGreen b + ps.countP (fun p => p.2.1 = b) ∧
      (ps.foldl histStep init).countsBlue b
          = init.countsBlue b + ps.countP (fun p => p.2.2 = b) := by
  induction ps with
  | nil => intro init b; simp
  | cons p ps ih =>
    intro init b
    simp only [List.foldl_cons, List.countP_cons]
    obtain ⟨h1, h2, h3, h4⟩ := ih (histStep init p) b
    refine ⟨?_, ?_, ?_, ?_⟩
    · rw [h1]
      simp only [histStep, bumpCount_apply, lumaKey]
      by_cases hb : lumaOf p.1 p.2.1 p.2.2 = b <;> simp [hb] <;> omega
    · rw [h2]
      simp only [histStep, bumpCount_apply]
      by_cases hb : p.1 = b <;> simp [hb] <;> omega
    · rw [h3]
      simp only [histStep, bumpCount_apply]
      by_cases hb : p.2.1 = b <;> simp [hb] <;> omega
    · rw [h4]
      simp only [histStep, bumpCount_apply]
      by_cases hb : p.2.2 = b <;> simp [hb] <;> omega

theorem sum_countP_eq (S : Finset Nat) (key : Nat × Nat × Nat → Nat) :
    ∀ ps : List (Nat × Nat × Nat),
      (∑ b in S, ps.countP (fun p => key p = b)) = ps.countP (fun p => key p ∈ S) := by
  intro ps
  induction ps with
  | nil => simp
  | cons p ps ih =>
    simp only [List.countP_cons]
    rw [Finset.sum_add_distrib, ih]
    congr 1
    have : (∑ b in S, if key p = b then 1 else 0)
        = if key p ∈ S then 1 else 0 := Finset.sum_ite_eq S (key p) (fun _ => 1)
    simpa using this

theorem countP_true_of_all {ps : List (Nat × Nat × Nat)} {q : Nat × Nat × Nat → Bool}
    (h : ∀ p ∈ ps, q p = true) : ps.countP q = ps.length :=
  List.countP_eq_length.mpr h

/-- pixelsOf on a buffer that is the concatenation of per-pixel chunks
of length channels ≥ 3 visits exactly one triple per chunk: its first
three entries. -/
theorem pixelsOf_flatten (channels : Nat) (hch : 3 ≤ channels) :
    ∀ chunks : List (List Nat), (∀ c ∈ chunks, c.length = channels) →
      pixelsOf chunks.flatten channels
        = chunks.map (fun c => (c.getD 0 0, c.getD 1 0, c.getD 2 0)) := by
  intro chunks
  induction chunks with
  | nil => intro _; simp [pixelsOf]
  | cons c rest ih =>
    intro hlen
    have hc : c.length = channels := hlen c (List.mem_cons_self c rest)
    obtain ⟨a, b, d, t, rfl⟩ : ∃ a b d t, c = a :: b :: d :: t := by
      rcases c with _ | ⟨a, _ | ⟨b, _ | ⟨d, t⟩⟩⟩
      · simp at hc; omega
      · simp at hc; omega
      · simp at hc; omega
      · exact ⟨a, b, d, t, rfl⟩
    have hrest : ∀ c' ∈ rest, c'.length = channels := fun c' hc' =>
      hlen c' (List.mem_cons_of_mem _ hc')
    have ht : t.length = channels - 3 := by
      simp only [List.length_cons] at hc
      omega
    simp only [List.flatten_cons, List.cons_append, List.map_cons]
    rw [pixelsOf]
    have hdrop : (b :: d :: (t ++ rest.flatten)).drop (channels - 1) = rest.flatten := by
      have h2 : channels - 1 = t.length + 1 + 1 := by omega
      rw [h2, List.drop_succ_cons, List.drop_succ_cons]
      exact List.drop_left t rest.flatten
    rw [hdrop, ih hrest]
    simp

/-- Shorthand hypotheses: a decoded raw buffer of w*h pixels, each a
chunk of channels bytes. -/
def WellFormedBuffer (chunks : List (List Nat)) (channels w h : Nat) : Prop :=
  3 ≤ channels ∧ (∀ c ∈ chunks, c.length = channels) ∧
    (∀ c ∈ chunks, ∀ v ∈ c, v < 256) ∧ chunks.length = w * h

theorem pixelsOf_components_lt {chunks : List (List Nat)} {channels w h : Nat}
    (hwf : WellFormedBuffer chunks channels w h) :
    ∀ p ∈ pixelsOf chunks.flatten channels, p.1 < 256 ∧ p.2.1 < 256 ∧ p.2.2 < 256 := by
  obtain ⟨hch, hlen, hval, _⟩ := hwf
  intro p hp
  rw [pixelsOf_flatten channels hch chunks hlen] at hp
  obtain ⟨c, hc, rfl⟩ := List.mem_map.mp hp
  have hcl : c.length = channels := hlen c hc
  obtain ⟨a, b, d, t, rfl⟩ : ∃ a b d t, c = a :: b :: d :: t := by
    rcases c with _ | ⟨a, _ | ⟨b, _ | ⟨d, t⟩⟩⟩ <;> simp at hcl <;> try omega
    · exact ⟨a, b, d, t, rfl⟩
  refine ⟨?_, ?_, ?_⟩
  · exact hval _ hc a (by simp)
  · exact hval _ hc b (by simp)
  · exact hval _ hc d (by simp)

theorem pixelsOf_length {chunks : List (List Nat)} {channels w h : Nat}
    (hwf : WellFormedBuffer chunks channels w h) :
    (pixelsOf chunks.flatten channels).length = w * h := by
  obtain ⟨hch, hlen, _, hcount⟩ := hwf
  rw [pixelsOf_flatten channels hch chunks hlen, List.length_map, hcount]

/-- The percentage fields of computeHistogram, in terms of its own
luma bucket counts. -/
theorem computeHistogram_pcts_def (data : List Nat) (channels w h : Nat) :
    (computeHistogram data channels w h).highlightsPct
        = (if 0 < w * h then
            ((∑ b in Finset.Ico 230 256,
                (computeHistogram data channels w h).countsLuma b : Nat) : ℚ)
              / ((w * h : Nat) : ℚ) * 100
          else 0) ∧
      (computeHistogram data channels w h).shadowsPct
        = (if 0 < w * h then
            ((∑ b in Finset.range 25,
                (computeHistogram data channels w h).countsLuma b : Nat) : ℚ)
              / ((w * h : Nat) : ℚ) * 100
          else 0) := by
  constructor <;> rfl

/-- The bucket-count fields of computeHistogram, as counts over the
visited pixel triples. -/
theorem computeHistogram_counts (data : List Nat) (channels w h : Nat) (b : Nat) :
    (computeHistogram data channels w h).countsLuma b
        = (pixelsOf data channels).countP (fun p => lumaKey p = b) ∧
      (computeHistogram data channels w h).countsRed b
        = (pixelsOf data channels).countP (fun p => p.1 = b) ∧
      (computeHistogram data channels w h).countsGreen b
        = (pixelsOf data channels).countP (fun p => p.2.1 = b) ∧
      (computeHistogram data channels w h).countsBlue b
        = (pixelsOf data channels).countP (fun p => p.2.2 = b) := by
  have := foldl_histStep_counts (pixelsOf data channels)
    ⟨fun _ => 0, fun _ => 0, fun _ => 0, fun _ => 0⟩ b
  simpa [computeHistogram] using this

/-- C6: over every decoded pixel buffer of width w and height h, each
of the four 256-bucket count arrays of computeHistogram sums to
exactly w*h, and highlightsPct + shadowsPct ≤ 100. -/
theorem computeHistogram_bucket_sums (chunks : List (List Nat)) (channels w h : Nat)
    (hwf : WellFormedBuffer chunks channels w h) :
    (∑ b in Finset.range 256, (computeHistogram chunks.flatten channels w h).countsLuma b) = w * h ∧
    (∑ b in Finset.range 256, (computeHistogram chunks.flatten channels w h).countsRed b) = w * h ∧
    (∑ b in Finset.range 256, (computeHistogram chunks.flatten channels w h).countsGreen b) = w * h ∧
    (∑ b in Finset.range 256, (computeHistogram chunks.flatten channels w h).countsBlue b) = w * h ∧
    (computeHistogram chunks.flatten channels w h).highlightsPct
        + (computeHistogram chunks.flatten channels w h).shadowsPct ≤ 100 := by
  have hlenps := pixelsOf_length hwf
  have hcomp := pixelsOf_components_lt hwf
  set ps := pixelsOf chunks.flatten channels with hps
  have hsum : ∀ key : Nat × Nat × Nat → Nat, (∀ p ∈ ps, key p < 256) →
      (∑ b in Finset.range 256,
        ps.countP (fun p => key p = b)) = w * h := by
    intro key hkey
    rw [sum_countP_eq (Finset.range 256) key ps]
    rw [countP_true_of_all (by
      intro p hp
      simpa using hkey p hp)]
    exact hlenps
  have hluma := hsum lumaKey (fun p _ => lumaOf_lt_256 p.1 p.2.1 p.2.2)
  have hred := hsum (fun p => p.1) (fun p hp => (hcomp p hp).1)
  have hgreen := hsum (fun p => p.2.1) (fun p hp => (hcomp p hp).2.1)
  have hblue := hsum (fun p => p.2.2) (fun p hp => (hcomp p hp).2.2)
  refine ⟨?_, ?_, ?_, ?_, ?_⟩
  · rw [Finset.sum_congr rfl
      (fun b _ => (computeHistogram_counts chunks.flatten channels w h b).1)]
    exact hluma
  · rw [Finset.sum_congr rfl
      (fun b _ => (computeHistogram_counts chunks.flatten channels w h b).2.1)]
    exact hred
  · rw [Finset.sum_congr rfl
      (fun b _ => (computeHistogram_counts chunks.flatten channels w h b).2.2.1)]
    exact hgreen
  · rw [Finset.sum_congr rfl
      (fun b _ => (computeHistogram_counts chunks.flatten channels w h b).2.2.2)]
    exact hblue
  · -- the two tail sums are over disjoint bucket ranges inside range 256
    have htotal : (∑ b in Finset.range 256,
        (computeHistogram chunks.flatten channels w h).countsLuma b) = w * h := by
      rw [Finset.sum_congr rfl
        (fun b _ => (computeHistogram_counts chunks.flatten channels w h b).1)]
      exact hluma
    obtain ⟨hH, hS⟩ := computeHistogram_pcts_def chunks.flatten channels w h
    by_cases ht : 0 < w * h
    · rw [hH, hS, if_pos ht, if_pos ht]
      have hdisj : Disjoint (Finset.Ico 230 256) (Finset.range 25) := by
        rw [Finset.disjoint_left]
        intro b hb hb'
        simp only [Finset.mem_Ico] at hb
        simp only [Finset.mem_range] at hb'
        omega
      have hsubset : Finset.Ico 230 256 ∪ Finset.range 25 ⊆ Finset.range 256 := by
        intro b hb
        simp only [Finset.mem_union, Finset.mem_Ico, Finset.mem_range] at hb ⊢
        omega
      have hle : (∑ b in Finset.Ico 230 256,
            (computeHistogram chunks.flatten channels w h).countsLuma b)
          + (∑ b in Finset.range 25,
            (computeHistogram chunks.flatten channels w h).countsLuma b) ≤ w * h := by
        rw [← Finset.sum_union hdisj, ← htotal]
        exact Finset.sum_le_sum_of_subset hsubset
      have htq : (0 : ℚ) < ((w * h : Nat) : ℚ) := by exact_mod_cast ht
      have hcast : ((∑ b in Finset.Ico 230 256,
            (computeHistogram chunks.flatten channels w h).countsLuma b : Nat) : ℚ)
          + ((∑ b in Finset.range 25,
            (computeHistogram chunks.flatten channels w h).countsLuma b : Nat) : ℚ)
          ≤ ((w * h : Nat) : ℚ) := by exact_mod_cast hle
      have hring : ∀ a c t : ℚ, a / t * 100 + c / t * 100 = (a + c) * 100 / t := by
        intro a c t; ring
      rw [hring, div_le_iff₀ htq]
      linarith [hcast]
    · rw [hH, hS, if_neg ht, if_neg ht]
      norm_num

theorem countP_ext (ps : List (Nat × Nat × Nat)) (p q : Nat × Nat × Nat → Bool)
    (h : ∀ x ∈ ps, p x = q x) : ps.countP p = ps.countP q := by
  induction ps with
  | nil => simp
  | cons a ps ih =>
    simp only [List.countP_cons]
    rw [ih (fun x hx => h x (List.mem_cons_of_mem a hx)), h a (List.mem_cons_self a ps)]

theorem lumaKey_lt_256 (p : Nat × Nat × Nat) : lumaKey p < 256 :=
  lumaOf_lt_256 p.1 p.2.1 p.2.2

/-- The highlight tail of the luma buckets counts the pixels with
luma ≥ 230, and the shadow head counts the pixels with luma ≤ 24. -/
theorem computeHistogram_tail_counts (data : List Nat) (channels w h : Nat) :
    (∑ b in Finset.Ico 230 256, (computeHistogram data channels w h).countsLuma b)
        = (pixelsOf data channels).countP (fun p => 230 ≤ lumaKey p) ∧
      (∑ b in Finset.range 25, (computeHistogram data channels w h).countsLuma b)
        = (pixelsOf data channels).countP (fun p => lumaKey p ≤ 24) := by
  constructor
  · rw [Finset.sum_congr rfl
      (fun b _ => (computeHistogram_counts data channels w h b).1)]
    rw [sum_countP_eq (Finset.Ico 230 256) lumaKey (pixelsOf data channels)]
    apply countP_ext
    intro x _
    have := lumaKey_lt_256 x
    simp only [Finset.mem_Ico]
    apply decide_eq_decide.mpr
    omega
  · rw [Finset.sum_congr rfl
      (fun b _ => (computeHistogram_counts data channels w h b).1)]
    rw [sum_countP_eq (Finset.range 25) lumaKey (pixelsOf data channels)]
    apply countP_ext
    intro x _
    simp only [Finset.mem_range]
    apply decide_eq_decide.mpr
    omega

/-- C3 counterexample: on the one-pixel buffer [25, 25, 25]
(width = height = 1) the single pixel has luma exactly 25, so the
fraction of pixels with luma ≤ 25 is 1 and the claim demands
shadowsPct = 100; but countsLuma.slice(0, 25) stops at bucket 24, so
computeHistogram returns shadowsPct = 0. -/
theorem computeHistogram_shadows_counterexample :
    (computeHistogram [25, 25, 25] 3 1 1).shadowsPct = 0 ∧
      lumaOf 25 25 25 = 25 ∧
      (100 : ℚ) * (((pixelsOf [25, 25, 25] 3).countP (fun p => lumaKey p ≤ 25) : Nat) : ℚ)
          / ((1 * 1 : Nat) : ℚ) = 100 ∧
      (0 : ℚ) ≠ 100 := by
  have hpx : pixelsOf [25, 25, 25] 3 = [(25, 25, 25)] := by
    simp [pixelsOf]
  have hluma : lumaOf 25 25 25 = 25 := by
    rw [lumaOf, jsRound]
    norm_num
    decide
  refine ⟨?_, hluma, ?_, by norm_num⟩
  · rw [(computeHistogram_pcts_def [25, 25, 25] 3 1 1).2, if_pos (by norm_num)]
    have hsum : (∑ b in Finset.range 25, (computeHistogram [25, 25, 25] 3 1 1).countsLuma b)
        = 0 := by
      rw [(computeHistogram_tail_counts [25, 25, 25] 3 1 1).2, hpx]
      simp [List.countP_cons, lumaKey, hluma]
    rw [hsum]
    norm_num
  · rw [hpx]
    simp only [List.countP_cons, List.countP_nil, lumaKey, hluma]
    norm_num

/-- C3 (amended): over every decoded pixel buffer, highlightsPct is 100
times the fraction of pixels whose luma is ≥ 230 and shadowsPct is 100
times the fraction of pixels whose luma is ≤ 24 (the source slices the
luma buckets as slice(0, 25), excluding bucket 25), both over the total
pixel count, and both are 0 when the image has zero pixels; luma is
round(0.2126 R + 0.7152 G + 0.0722 B) clamped to [0, 255]. -/
theorem computeHistogram_pcts (chunks : List (List Nat)) (channels w h : Nat)
    (_hwf : WellFormedBuffer chunks channels w h) :
    (0 < w * h →
      (computeHistogram chunks.flatten channels w h).highlightsPct
          = 100 * (((pixelsOf chunks.flatten channels).countP
              (fun p => 230 ≤ lumaKey p) : Nat) : ℚ) / ((w * h : Nat) : ℚ) ∧
        (computeHistogram chunks.flatten channels w h).shadowsPct
          = 100 * (((pixelsOf chunks.flatten channels).countP
              (fun p => lumaKey p ≤ 24) : Nat) : ℚ) / ((w * h : Nat) : ℚ)) ∧
      (w * h = 0 →
        (computeHistogram chunks.flatten channels w h).highlightsPct = 0 ∧
          (computeHistogram chunks.flatten channels w h).shadowsPct = 0) := by
  obtain ⟨hH, hS⟩ := computeHistogram_pcts_def chunks.flatten channels w h
  obtain ⟨hHC, hSC⟩ := computeHistogram_tail_counts chunks.flatten channels w h
  constructor
  · intro ht
    rw [hH, hS, if_pos ht, if_pos ht, hHC, hSC]
    constructor
    · rw [div_mul_eq_mul_div, mul_comm]
    · rw [div_mul_eq_mul_div, mul_comm]
  · intro ht
    rw [hH, hS, if_neg (by omega), if_neg (by omega)]
    exact ⟨rfl, rfl⟩

/-- Concrete instantiation of the amended C3 on an all-black pixel:
highlightsPct = 0 and shadowsPct = 100. -/
theorem computeHistogram_pcts_witness :
    (computeHistogram [0, 0, 0] 3 1 1).highlightsPct = 0 ∧
      (computeHistogram [0, 0, 0] 3 1 1).shadowsPct = 100 := by
  have hwf : WellFormedBuffer [[0, 0, 0]] 3 1 1 := by
    refine ⟨by omega, ?_, ?_, by simp⟩
    · intro c hc; simp at hc; subst hc; simp
    · intro c hc v hv; simp at hc; subst hc; simp at hv; omega
  have h := (computeHistogram_pcts [[0, 0, 0]] 3 1 1 hwf).1 (by norm_num)
  have hfl : ([[0, 0, 0]] : List (List Nat)).flatten = [0, 0, 0] := by simp
  rw [hfl] at h
  have hpx : pixelsOf [0, 0, 0] 3 = [(0, 0, 0)] := by simp [pixelsOf]
  have hluma : lumaOf 0 0 0 = 0 := by
    rw [lumaOf, jsRound]
    norm_num
  rw [hpx] at h
  simp only [List.countP_cons, List.countP_nil, lumaKey, hluma] at h
  obtain ⟨h1, h2⟩ := h
  constructor
  · rw [h1]; norm_num
  · rw [h2]; norm_num

/-- Concrete instantiation of C6 on a single black pixel. -/
theorem computeHistogram_bucket_sums_witness :
    (∑ b in Finset.range 256, (computeHistogram [0, 0, 0] 3 1 1).countsLuma b) = 1 * 1 ∧
      (computeHistogram [0, 0, 0] 3 1 1).highlightsPct
        + (computeHistogram [0, 0, 0] 3 1 1).shadowsPct ≤ 100 := by
  have h := computeHistogram_bucket_sums [[0, 0, 0]] 3 1 1
    (by
      refine ⟨by omega, ?_, ?_, by simp⟩
      · intro c hc; simp at hc; subst hc; simp
      · intro c hc v hv; simp at hc; subst hc; simp at hv; omega)
  simp only [List.flatten] at h
  exact ⟨by simpa using h.1, by simpa using h.2.2.2.2⟩

/-! ## Dominant color shape -/

set_option maxRecDepth 8192 in
theorem toHexChannel_shape : ∀ n, n < 256 →
    (toHexChannel n).length = 2 ∧ ∀ c ∈ toHexChannel n, isLowerHexDigit c = true := by
  decide

/-- C9: for all integer channel values in [0, 255], rgbToHex returns a
string consisting of the character # followed by exactly six lowercase
hexadecimal digits, each channel zero-padded to two digits. -/
theorem rgbToHex_shape (r g b : Nat) (hr : r ≤ 255) (hg : g ≤ 255) (hb : b ≤ 255) :
    (rgbToHex r g b).length = 7 ∧
      (rgbToHex r g b).head? = some '#' ∧
      (rgbToHex r g b).tail = toHexChannel r ++ toHexChannel g ++ toHexChannel b ∧
      ∀ c ∈ (rgbToHex r g b).tail, isLowerHexDigit c = true := by
  obtain ⟨hrl, hrc⟩ := toHexChannel_shape r (by omega)
  obtain ⟨hgl, hgc⟩ := toHexChannel_shape g (by omega)
  obtain ⟨hbl, hbc⟩ := toHexChannel_shape b (by omega)
  refine ⟨?_, rfl, rfl, ?_⟩
  · simp [rgbToHex, hrl, hgl, hbl]
  · intro c hc
    simp only [rgbToHex, List.tail_cons, List.append_assoc, List.mem_append] at hc
    rcases hc with hc | hc | hc
    · exact hrc c hc
    · exact hgc c hc
    · exact hbc c hc

/-- Concrete instantiation of C9 at (0, 171, 255): "#00abff". -/
theorem rgbToHex_shape_witness :
    (rgbToHex 0 171 255).length = 7 ∧
      (rgbToHex 0 171 255).head? = some '#' ∧
      rgbToHex 0 171 255 = ['#', '0', '0', 'a', 'b', 'f', 'f'] := by
  have h := rgbToHex_shape 0 171 255 (by omega) (by omega) (by omega)
  exact ⟨h.1, h.2.1, by decide⟩

/-! ## needsReprocessing -/

/-- C7: the library needsReprocessing exported next to processPhotoFromR2
ignores the histogram and rendition state entirely (its input has no
such fields), contradicting its own doc comment ("OR
blurhash/dominant_color/histogram are missing") and the spec: on a
published photo carrying blurhash and dominant_color whose histogram
and renditions are missing it returns false, while the admin
needsReprocessing of the admin component — the helper gating the operator
reprocess action — returns true on the same state, as the claim
requires. -/
theorem needsReprocessing_ignores_histogram :
    needsReprocessing "published" (some "LEHV6nWB") (some "#aabbcc") = false ∧
      ProcessingStatus.needsReprocessing "published" (some "LEHV6nWB") (some "#aabbcc")
        false false = true ∧
      ProcessingStatus.needsReprocessing "published" (some "LEHV6nWB") (some "#aabbcc")
        true true = false := by
  refine ⟨?_, ?_, ?_⟩ <;> decide

/-! ## Background geocode task -/

/-- C8: every update the geocode task issues is a buildUpdatePayload of
the read-back state; such a payload contains a location field only if
that field was empty (falsy) at read-back, so populated fields are
never overwritten; and when every location field is already populated
the task returns before the external call, issuing neither a
reverse-geocoding request nor an update. -/
theorem executeGeocodeTask_frame :
    (∀ (p : LocationFields) (g : GeocodedLocation),
      ((buildUpdatePayload p g).country.isSome → strTruthy p.country = false) ∧
      ((buildUpdatePayload p g).region.isSome → strTruthy p.region = false) ∧
      ((buildUpdatePayload p g).city.isSome → strTruthy p.city = false) ∧
      ((buildUpdatePayload p g).place_name.isSome → strTruthy p.place_name = false)) ∧
    (∀ (tok : Bool) (p : LocationFields) (geo : RetryResult (Option GeocodedLocation))
        (out : GeocodeOutcome) (u : UpdatePayload),
      executeGeocodeTask tok (some p) geo = .ok out → out.update = some u →
        ∃ g : GeocodedLocation, u = buildUpdatePayload p g) ∧
    (∀ (tok : Bool) (p : LocationFields) (geo : RetryResult (Option GeocodedLocation)),
      needsGeocoding p = false →
        executeGeocodeTask tok (some p) geo = .ok ⟨false, none⟩) := by
  refine ⟨?_, ?_, ?_⟩
  · intro p g
    refine ⟨?_, ?_, ?_, ?_⟩ <;>
      · rw [buildUpdatePayload]
        simp only
        split
        · rename_i hcond
          intro _
          simpa using hcond.1
        · simp
  · intro tok p geo out u hrun hupd
    rw [executeGeocodeTask.eq_def] at hrun
    rcases tok with _ | _
    · simp at hrun
      rw [← hrun] at hupd
      simp at hupd
    · simp only [Bool.true_eq_false, if_false] at hrun
      by_cases hneed : needsGeocoding p = false
      · rw [if_pos hneed] at hrun
        simp at hrun
        rw [← hrun] at hupd
        simp at hupd
      · rw [if_neg hneed] at hrun
        rcases geo with ⟨og, _⟩ | ⟨e, _⟩
        · rcases og with _ | g
          · simp at hrun
            rw [← hrun] at hupd
            simp at hupd
          · simp only at hrun
            split at hrun
            · have hout : out = ⟨true, some (buildUpdatePayload p g)⟩ := by
                cases hrun
                rfl
              rw [hout] at hupd
              simp at hupd
              exact ⟨g, hupd.symm⟩
            · have hout : out = ⟨true, none⟩ := by cases hrun; rfl
              rw [hout] at hupd
              simp at hupd
        · simp at hrun
  · intro tok p geo hneed
    rw [executeGeocodeTask.eq_def]
    rcases tok with _ | _
    · simp
    · simp [hneed]

/-! ## Lemmas about the ingestion pipeline -/

theorem uploadRenditionsLoop_tables (uploadOk : String → Bool) (storageId : String) :
    ∀ (names : List String) (st : Store),
      (uploadRenditionsLoop uploadOk storageId names st).2.photos = st.photos ∧
      (uploadRenditionsLoop uploadOk storageId names st).2.assets = st.assets ∧
      (uploadRenditionsLoop uploadOk storageId names st).2.photo_exif = st.photo_exif ∧
      (uploadRenditionsLoop uploadOk storageId names st).2.photo_rendition = st.photo_rendition ∧
      (uploadRenditionsLoop uploadOk storageId names st).2.photo_histogram = st.photo_histogram := by
  intro names
  induction names with
  | nil => intro st; simp [uploadRenditionsLoop]
  | cons name rest ih =>
    intro st
    rw [uploadRenditionsLoop]
    by_cases hu : uploadOk name
    · rw [if_pos hu]
      exact ih (putR2Object (renditionKey storageId name) st)
    · rw [if_neg hu]
      exact ⟨rfl, rfl, rfl, rfl, rfl⟩

theorem uploadRenditionsLoop_fails (uploadOk : String → Bool) (storageId : String) :
    ∀ (names : List String) (st : Store), (∃ n ∈ names, uploadOk n = false) →
      ∃ nm st', uploadRenditionsLoop uploadOk storageId names st = (some nm, st') := by
  intro names
  induction names with
  | nil => intro st h; simp at h
  | cons name rest ih =>
    intro st h
    rw [uploadRenditionsLoop]
    by_cases hu : uploadOk name
    · rw [if_pos hu]
      apply ih
      obtain ⟨n, hn, hfalse⟩ := h
      rcases List.mem_cons.mp hn with rfl | hn'
      · rw [hu] at hfalse; cases hfalse
      · exact ⟨n, hn', hfalse⟩
    · rw [if_neg hu]
      exact ⟨name, st, rfl⟩

theorem filter_ne_not_mem {α : Type} [DecidableEq α] (l : List α) (f : α → String) (v : String) :
    ∀ r ∈ l.filter (fun r => f r ≠ v), f r ≠ v := by
  intro r hr
  have := List.mem_filter.mp hr
  simpa using this.2

theorem r2UploadAndFinalize_photos (env : R2RunEnv) (ctx : RunContext) (st3 : Store) :
    (r2UploadAndFinalize env ctx st3).2.photos
        = st3.photos.filter (fun r => r.id ≠ ctx.photoId) ∨
      (r2UploadAndFinalize env ctx st3).2.photos = st3.photos ∨
      (r2UploadAndFinalize env ctx st3).2.photos
        = st3.photos.map (fun r => if r.id = ctx.photoId then publishUpdate env r else r) := by
  rcases hloop : uploadRenditionsLoop env.uploadOk ctx.storageId renditionNames st3 with ⟨f, st4⟩
  have htab : st4.photos = st3.photos := by
    have := (uploadRenditionsLoop_tables env.uploadOk ctx.storageId renditionNames st3).1
    rw [hloop] at this
    exact this
  rcases f with _ | nm
  · by_cases hu : env.updateFails
    · right; left
      simp only [r2UploadAndFinalize, hloop, hu, if_true]
      split <;> split <;> simp [htab]
    · right; right
      simp only [r2UploadAndFinalize, hloop, hu, if_false]
      simp only [Bool.not_eq_true] at hu
      simp only [hu, Bool.false_eq_true, if_false]
      split <;> split <;> simp [htab]
  · left
    simp [r2UploadAndFinalize, hloop, deleteR2Objects, cleanupPhotoRecords, htab]

theorem r2UploadAndFinalize_photos_of (env : R2RunEnv) (ctx : RunContext) (st3 : Store)
    (ph : List PhotoRow) (hph : st3.photos = ph) :
    (r2UploadAndFinalize env ctx st3).2.photos = ph.filter (fun r => r.id ≠ ctx.photoId) ∨
      (r2UploadAndFinalize env ctx st3).2.photos = ph ∨
      (r2UploadAndFinalize env ctx st3).2.photos
        = ph.map (fun r => if r.id = ctx.photoId then publishUpdate env r else r) := by
  subst hph
  exact r2UploadAndFinalize_photos env ctx st3

theorem processPhotoFromR2_photos_cases (env : R2RunEnv) (ctx : RunContext) (st0 : Store) :
    (processPhotoFromR2 env ctx st0).2.photos = st0.photos ∨
      (processPhotoFromR2 env ctx st0).2.photos
        = (st0.photos ++ [baselinePhotoRow ctx]).filter (fun r => r.id ≠ ctx.photoId) ∨
      (processPhotoFromR2 env ctx st0).2.photos = st0.photos ++ [baselinePhotoRow ctx] ∨
      (processPhotoFromR2 env ctx st0).2.photos
        = (st0.photos ++ [baselinePhotoRow ctx]).map
            (fun r => if r.id = ctx.photoId then publishUpdate env r else r) := by
  rw [processPhotoFromR2]
  by_cases hread : env.readOk = false
  · left; simp [hread]
  · rw [if_neg hread]
    by_cases hdims : env.dimsOk = false
    · left; simp [hdims, cleanupR2Object]
    · rw [if_neg hdims]
      by_cases htype : env.typeOk = false
      · left; simp [htype, cleanupR2Object]
      · rw [if_neg htype]
        by_cases hasset : env.assetInsertFails
        · left; simp [hasset, cleanupR2Object]
        · rw [if_neg hasset]
          by_cases hphoto : env.photoInsertFails
          · left; simp [hphoto, cleanupR2Object]
          · rw [if_neg hphoto]
            exact Or.inr (r2UploadAndFinalize_photos_of env ctx _
              (st0.photos ++ [baselinePhotoRow ctx]) (by split <;> rfl))

theorem reprocessUploadAndFinalize_photos (env : ReprocessEnv) (pid sid : String) (st2 : Store) :
    (reprocessUploadAndFinalize env pid sid st2).2.photos = st2.photos ∨
      (reprocessUploadAndFinalize env pid sid st2).2.photos
        = st2.photos.map (fun r => if r.id = pid then reprocessPublishUpdate env r else r) := by
  rcases hloop : uploadRenditionsLoop env.uploadOk sid renditionNames st2 with ⟨f, st3⟩
  have htab : st3.photos = st2.photos := by
    have := (uploadRenditionsLoop_tables env.uploadOk sid renditionNames st2).1
    rw [hloop] at this
    exact this
  rcases f with _ | nm
  · by_cases hu : env.updateFails
    · left
      simp only [reprocessUploadAndFinalize, hloop, hu, if_true]
      split <;> split <;> simp [htab]
    · right
      simp only [reprocessUploadAndFinalize, hloop]
      simp only [Bool.not_eq_true] at hu
      simp only [hu, Bool.false_eq_true, if_false]
      split <;> split <;> simp [htab]
  · left
    simp [reprocessUploadAndFinalize, hloop, htab]

theorem reprocessUploadAndFinalize_error_frame (env : ReprocessEnv) (pid sid : String)
    (st2 : Store) (msg : String)
    (herr : (reprocessUploadAndFinalize env pid sid st2).1 = .error msg) :
    (reprocessUploadAndFinalize env pid sid st2).2.photos = st2.photos := by
  rcases hloop : uploadRenditionsLoop env.uploadOk sid renditionNames st2 with ⟨f, st3⟩
  have htab : st3.photos = st2.photos := by
    have := (uploadRenditionsLoop_tables env.uploadOk sid renditionNames st2).1
    rw [hloop] at this
    exact this
  rcases f with _ | nm
  · rw [reprocessUploadAndFinalize, hloop] at herr
    simp at herr
  · simp [reprocessUploadAndFinalize, hloop, htab]

theorem reprocessPhoto_photos_cases (env : ReprocessEnv) (pid sid : String) (st0 : Store) :
    (reprocessPhoto env pid sid st0).2.photos = st0.photos ∨
      (reprocessPhoto env pid sid st0).2.photos
        = st0.photos.map (fun r => if r.id = pid then reprocessPublishUpdate env r else r) := by
  rw [reprocessPhoto]
  by_cases h1 : env.fetchOk = false ∨ (st0.photos.find? (fun r => r.id = pid)).isNone
  · left; rw [if_pos h1]
  · rw [if_neg h1]
    by_cases h2 : env.assetOk = false
    · left; rw [if_pos h2]
    · rw [if_neg h2]
      by_cases h3 : env.urlOk = false
      · left; rw [if_pos h3]
      · rw [if_neg h3]
        by_cases h4 : env.readOk = false
        · left; rw [if_pos h4]
        · rw [if_neg h4]
          have h := reprocessUploadAndFinalize_photos env pid sid
            { deleteR2Objects
                ((st0.photo_rendition.filter (fun r => r.photo_id = pid)).map (fun r => r.key))
                st0 with
              photo_rendition := (deleteR2Objects
                ((st0.photo_rendition.filter (fun r => r.photo_id = pid)).map (fun r => r.key))
                st0).photo_rendition.filter (fun r => r.photo_id ≠ pid)
              photo_histogram := (deleteR2Objects
                ((st0.photo_rendition.filter (fun r => r.photo_id = pid)).map (fun r => r.key))
                st0).photo_histogram.filter (fun r => r.photo_id ≠ pid) }
          exact h

theorem reprocessPhoto_error_frame (env : ReprocessEnv) (pid sid : String) (st0 : Store)
    (msg : String) (herr : (reprocessPhoto env pid sid st0).1 = .error msg) :
    (reprocessPhoto env pid sid st0).2.photos = st0.photos := by
  rw [reprocessPhoto] at herr ⊢
  by_cases h1 : env.fetchOk = false ∨ (st0.photos.find? (fun r => r.id = pid)).isNone
  · rw [if_pos h1]
  · rw [if_neg h1] at herr ⊢
    by_cases h2 : env.assetOk = false
    · rw [if_pos h2]
    · rw [if_neg h2] at herr ⊢
      by_cases h3 : env.urlOk = false
      · rw [if_pos h3]
      · rw [if_neg h3] at herr ⊢
        by_cases h4 : env.readOk = false
        · rw [if_pos h4]
        · rw [if_neg h4] at herr ⊢
          exact (reprocessUploadAndFinalize_error_frame env pid sid _ msg herr).trans rfl

theorem foldl_putR2Object_tables :
    ∀ (keys : List String) (st : Store),
      (keys.foldl (fun st key => putR2Object key st) st).photos = st.photos ∧
      (keys.foldl (fun st key => putR2Object key st) st).assets = st.assets := by
  intro keys
  induction keys with
  | nil => intro st; exact ⟨rfl, rfl⟩
  | cons key rest ih =>
    intro st
    simp only [List.foldl_cons]
    exact ih (putR2Object key st)

theorem processPhotoUpload_photos_cases (env : UploadEnv) (ctx : RunContext) (st0 : Store) :
    (processPhotoUpload env ctx st0).2.photos = st0.photos ∨
      (processPhotoUpload env ctx st0).2.photos
        = (st0.photos ++ [uploadPhotoRow ctx env]).filter (fun r => r.id ≠ ctx.photoId) ∨
      (processPhotoUpload env ctx st0).2.photos = st0.photos ++ [uploadPhotoRow ctx env] := by
  have hph2 : (List.foldl (fun st key => putR2Object key st) (putR2Object ctx.originalKey st0)
      (renditionNames.map (renditionKey ctx.storageId))).photos = st0.photos :=
    (foldl_putR2Object_tables (renditionNames.map (renditionKey ctx.storageId))
      (putR2Object ctx.originalKey st0)).1.trans rfl
  rw [processPhotoUpload]
  by_cases h1 : env.dimsOk = false
  · left; rw [if_pos h1]
  · rw [if_neg h1]
    by_cases h2 : env.typeOk = false
    · left; rw [if_pos h2]
    · rw [if_neg h2]
      by_cases h3 : env.uploadOriginalOk = false
      · left; rw [if_pos h3]
      · rw [if_neg h3]
        by_cases h4 : env.uploadRenditionsOk = false
        · left; rw [if_pos h4]; rfl
        · rw [if_neg h4]
          by_cases h5 : env.assetInsertThrows
          · left
            rw [if_pos h5]
            simp only [uploadCatch, Bool.false_eq_true, if_false, deleteR2Objects]
            rw [hph2]
          · rw [if_neg h5]
            by_cases h6 : env.photoInsertThrows
            · left
              rw [if_pos h6]
              simp only [uploadCatch, Bool.false_eq_true, if_false, if_true, deleteR2Objects]
              rw [hph2]
            · rw [if_neg h6]
              by_cases h7 : env.renditionInsertThrows
              · right; left
                rw [if_pos h7]
                simp only [uploadCatch, if_true, deleteR2Objects]
                rw [hph2]
              · rw [if_neg h7]
                by_cases h8 : env.hasExif = true ∧ env.exifInsertThrows = true
                · right; left
                  rw [if_pos h8]
                  simp only [uploadCatch, if_true, deleteR2Objects]
                  rw [hph2]
                · rw [if_neg h8]
                  by_cases h9 : env.histogramInsertThrows
                  · right; left
                    rw [if_pos h9]
                    split <;>
                      (simp only [uploadCatch, if_true, deleteR2Objects]; rw [hph2])
                  · right; right
                    rw [if_neg h9]
                    split <;> rfl

/-- C1: when the blob upload of some rendition permanently fails,
processPhotoFromR2 surfaces an error and the final store contains none
of the rows created by the run (photos, assets, photo_exif,
photo_rendition, photo_histogram keyed by the ids of the run), nor the
original blob, nor any rendition blob of the run: no Photo row of the
run remains queryable. -/
theorem processPhotoFromR2_rollback (env : R2RunEnv) (ctx : RunContext) (st0 : Store)
    (hread : env.readOk = true) (hdims : env.dimsOk = true) (htype : env.typeOk = true)
    (hasset : env.assetInsertFails = false) (hphoto : env.photoInsertFails = false)
    (hfail : ∃ n ∈ renditionNames, env.uploadOk n = false) :
    (∃ msg, (processPhotoFromR2 env ctx st0).1 = .error msg) ∧
      (∀ r ∈ (processPhotoFromR2 env ctx st0).2.photos, r.id ≠ ctx.photoId) ∧
      (∀ r ∈ (processPhotoFromR2 env ctx st0).2.assets, r.id ≠ ctx.assetId) ∧
      (∀ r ∈ (processPhotoFromR2 env ctx st0).2.photo_exif, r.photo_id ≠ ctx.photoId) ∧
      (∀ r ∈ (processPhotoFromR2 env ctx st0).2.photo_rendition, r.photo_id ≠ ctx.photoId) ∧
      (∀ r ∈ (processPhotoFromR2 env ctx st0).2.photo_histogram, r.photo_id ≠ ctx.photoId) ∧
      ctx.originalKey ∉ (processPhotoFromR2 env ctx st0).2.r2 ∧
      ∀ n ∈ renditionNames, renditionKey ctx.storageId n ∉ (processPhotoFromR2 env ctx st0).2.r2 := by
  have hrun : ∀ st3 : Store,
      (∃ msg, (r2UploadAndFinalize env ctx st3).1 = .error msg) ∧
        (∀ r ∈ (r2UploadAndFinalize env ctx st3).2.photos, r.id ≠ ctx.photoId) ∧
        (∀ r ∈ (r2UploadAndFinalize env ctx st3).2.assets, r.id ≠ ctx.assetId) ∧
        (∀ r ∈ (r2UploadAndFinalize env ctx st3).2.photo_exif, r.photo_id ≠ ctx.photoId) ∧
        (∀ r ∈ (r2UploadAndFinalize env ctx st3).2.photo_rendition, r.photo_id ≠ ctx.photoId) ∧
        (∀ r ∈ (r2UploadAndFinalize env ctx st3).2.photo_histogram, r.photo_id ≠ ctx.photoId) ∧
        ctx.originalKey ∉ (r2UploadAndFinalize env ctx st3).2.r2 ∧
        ∀ n ∈ renditionNames, renditionKey ctx.storageId n ∉ (r2UploadAndFinalize env ctx st3).2.r2 := by
    intro st3
    obtain ⟨nm, st4, hloop⟩ :=
      uploadRenditionsLoop_fails env.uploadOk ctx.storageId renditionNames st3 hfail
    rw [r2UploadAndFinalize, hloop]
    refine ⟨⟨_, rfl⟩, ?_, ?_, ?_, ?_, ?_, ?_, ?_⟩
    · exact filter_ne_not_mem _ (fun r : PhotoRow => r.id) ctx.photoId
    · exact filter_ne_not_mem _ (fun r : AssetRow => r.id) ctx.assetId
    · exact filter_ne_not_mem _ (fun r : ExifRow => r.photo_id) ctx.photoId
    · exact filter_ne_not_mem _ (fun r : RenditionRow => r.photo_id) ctx.photoId
    · exact filter_ne_not_mem _ (fun r : HistogramRow => r.photo_id) ctx.photoId
    · intro hmem
      have := List.mem_filter.mp hmem
      simp at this
    · intro n hn hmem
      have := List.mem_filter.mp hmem
      have hk : renditionKey ctx.storageId n
          ∈ ctx.originalKey :: renditionNames.map (renditionKey ctx.storageId) :=
        List.mem_cons_of_mem _ (List.mem_map_of_mem _ hn)
      simp only [deleteR2Objects, decide_not, List.mem_filter] at hmem
      rcases hmem with ⟨_, hdec⟩
      simp at hdec
      exact hdec.2 n hn rfl
  rw [processPhotoFromR2]
  rw [hread, hdims, htype, hasset, hphoto]
  simp only [Bool.true_eq_false, if_false]
  exact hrun _

/-- Concrete instantiation of C1, matching the spec scenario C: the
"list" rendition upload exhausts its retries; the run errors out and
the original blob, the thumb rendition blob and the photos row of the run
are all gone from the final state. -/
theorem processPhotoFromR2_rollback_witness :
    (∃ msg, (processPhotoFromR2
        ⟨true, true, true, true, false, false, false, fun n => n ≠ "list", false, false, false,
          "#112233", "LEHV6nWB"⟩
        ⟨"sid", "photos/sid/original.jpg", "pid", "aid"⟩
        ⟨[], [], [], [], [], ["photos/sid/original.jpg"]⟩).1 = .error msg) ∧
      (∀ r ∈ (processPhotoFromR2
        ⟨true, true, true, true, false, false, false, fun n => n ≠ "list", false, false, false,
          "#112233", "LEHV6nWB"⟩
        ⟨"sid", "photos/sid/original.jpg", "pid", "aid"⟩
        ⟨[], [], [], [], [], ["photos/sid/original.jpg"]⟩).2.photos, r.id ≠ "pid") ∧
      "photos/sid/original.jpg" ∉ (processPhotoFromR2
        ⟨true, true, true, true, false, false, false, fun n => n ≠ "list", false, false, false,
          "#112233", "LEHV6nWB"⟩
        ⟨"sid", "photos/sid/original.jpg", "pid", "aid"⟩
        ⟨[], [], [], [], [], ["photos/sid/original.jpg"]⟩).2.r2 ∧
      renditionKey "sid" "thumb" ∉ (processPhotoFromR2
        ⟨true, true, true, true, false, false, false, fun n => n ≠ "list", false, false, false,
          "#112233", "LEHV6nWB"⟩
        ⟨"sid", "photos/sid/original.jpg", "pid", "aid"⟩
        ⟨[], [], [], [], [], ["photos/sid/original.jpg"]⟩).2.r2 := by
  have h := processPhotoFromR2_rollback
    ⟨true, true, true, true, false, false, false, fun n => n ≠ "list", false, false, false,
      "#112233", "LEHV6nWB"⟩
    ⟨"sid", "photos/sid/original.jpg", "pid", "aid"⟩
    ⟨[], [], [], [], [], ["photos/sid/original.jpg"]⟩
    rfl rfl rfl rfl rfl ⟨"list", by decide, by decide⟩
  exact ⟨h.1, h.2.1, h.2.2.2.2.2.2.1, h.2.2.2.2.2.2.2 "thumb" (by decide)⟩

/-- C2 counterexample: a fully successful processPhotoUpload run
writes its photos row with status published and blurhash null (this
path computes no blurhash at all), falsifying the claim that blurhash
is non-null on every published record written by any ingestion path. -/
theorem processPhotoUpload_published_null_blurhash :
    (((processPhotoUpload
        ⟨true, true, false, true, true, false, false, false, false, false, "#112233"⟩
        ⟨"sid", "photos/sid/original.jpg", "pid", "aid"⟩
        ⟨[], [], [], [], [], []⟩).2.photos.head?).map
        (fun r => (r.status, r.dominant_color, r.blurhash)))
      = some ("published", some "#112233", none) := by
  rfl

/-- C2 (amended): for processPhotoFromR2, any row of the run satisfies
the invariant — dominant_color and blurhash non-null when published
(they are set by the same update that publishes), both null on a draft
row, which is what a run that failed before the final derived-data
update leaves behind.  reprocessPhoto preserves the invariant and, when
it fails, leaves the photos table exactly as it found it.
processPhotoUpload, however, writes its row already published with
non-null dominant_color but blurhash always null. -/
theorem derived_fields_invariant :
    (∀ (env : R2RunEnv) (ctx : RunContext) (st0 : Store),
      (∀ r ∈ st0.photos, r.id ≠ ctx.photoId) →
      ∀ r ∈ (processPhotoFromR2 env ctx st0).2.photos, r.id = ctx.photoId →
        ((r.status = "published" → r.dominant_color.isSome ∧ r.blurhash.isSome) ∧
          (r.status = "draft" → r.dominant_color = none ∧ r.blurhash = none))) ∧
    (∀ (env : ReprocessEnv) (pid sid : String) (st0 : Store),
      (∀ r ∈ st0.photos,
        (r.status = "published" → r.dominant_color.isSome ∧ r.blurhash.isSome) ∧
          (r.status = "draft" → r.dominant_color = none ∧ r.blurhash = none)) →
      ∀ r ∈ (reprocessPhoto env pid sid st0).2.photos,
        ((r.status = "published" → r.dominant_color.isSome ∧ r.blurhash.isSome) ∧
          (r.status = "draft" → r.dominant_color = none ∧ r.blurhash = none))) ∧
    (∀ (env : ReprocessEnv) (pid sid : String) (st0 : Store) (msg : String),
      (reprocessPhoto env pid sid st0).1 = .error msg →
        (reprocessPhoto env pid sid st0).2.photos = st0.photos) ∧
    (∀ (env : UploadEnv) (ctx : RunContext) (st0 : Store),
      (∀ r ∈ st0.photos, r.id ≠ ctx.photoId) →
      ∀ r ∈ (processPhotoUpload env ctx st0).2.photos, r.id = ctx.photoId →
        (r.status = "published" ∧ r.dominant_color.isSome ∧ r.blurhash = none)) := by
  refine ⟨?_, ?_, ?_, ?_⟩
  · intro env ctx st0 hfresh r hr hid
    rcases processPhotoFromR2_photos_cases env ctx st0 with h | h | h | h
    · rw [h] at hr
      exact absurd hid (hfresh r hr)
    · rw [h] at hr
      have hmem := List.mem_filter.mp hr
      simp only [ne_eq, decide_not, Bool.not_eq_eq_eq_not, Bool.not_true,
        decide_eq_false_iff_not] at hmem
      exact absurd hid hmem.2
    · rw [h] at hr
      rcases List.mem_append.mp hr with hr' | hr'
      · exact absurd hid (hfresh r hr')
      · have hr'' : r = baselinePhotoRow ctx := List.mem_singleton.mp hr'
        subst hr''
        constructor
        · intro hpub
          simp [baselinePhotoRow] at hpub
        · intro _
          exact ⟨rfl, rfl⟩
    · rw [h] at hr
      obtain ⟨r0, hr0, rfl⟩ := List.mem_map.mp hr
      rcases List.mem_append.mp hr0 with hr' | hr'
      · have hne := hfresh r0 hr'
        rw [if_neg hne] at hid
        exact absurd hid hne
      · have hr'' : r0 = baselinePhotoRow ctx := List.mem_singleton.mp hr'
        subst hr''
        rw [if_pos (show (baselinePhotoRow ctx).id = ctx.photoId from rfl)]
        constructor
        · intro _
          exact ⟨rfl, rfl⟩
        · intro hdraft
          simp [publishUpdate, baselinePhotoRow] at hdraft
  · intro env pid sid st0 hinv r hr
    rcases reprocessPhoto_photos_cases env pid sid st0 with h | h
    · rw [h] at hr
      exact hinv r hr
    · rw [h] at hr
      obtain ⟨r0, hr0, rfl⟩ := List.mem_map.mp hr
      by_cases hid : r0.id = pid
      · rw [if_pos hid]
        constructor
        · intro _
          exact ⟨rfl, rfl⟩
        · intro hdraft
          simp [reprocessPublishUpdate] at hdraft
      · rw [if_neg hid]
        exact hinv r0 hr0
  · intro env pid sid st0 msg herr
    exact reprocessPhoto_error_frame env pid sid st0 msg herr
  · intro env ctx st0 hfresh r hr hid
    rcases processPhotoUpload_photos_cases env ctx st0 with h | h | h
    · rw [h] at hr
      exact absurd hid (hfresh r hr)
    · rw [h] at hr
      have hmem := List.mem_filter.mp hr
      simp only [ne_eq, decide_not, Bool.not_eq_eq_eq_not, Bool.not_true,
        decide_eq_false_iff_not] at hmem
      exact absurd hid hmem.2
    · rw [h] at hr
      rcases List.mem_append.mp hr with hr' | hr'
      · exact absurd hid (hfresh r hr')
      · have hr'' : r = uploadPhotoRow ctx env := List.mem_singleton.mp hr'
        subst hr''
        exact ⟨rfl, rfl, rfl⟩

/-- Concrete instantiation of the amended C2: a processPhotoFromR2 run
whose final status update fails leaves its row as a draft with null
dominant_color and blurhash. -/
theorem derived_fields_invariant_witness :
    (((processPhotoFromR2
        ⟨true, true, true, false, false, false, false, fun _ => true, false, false, true,
          "#112233", "LEHV6nWB"⟩
        ⟨"sid", "photos/sid/original.jpg", "pid", "aid"⟩
        ⟨[], [], [], [], [], ["photos/sid/original.jpg"]⟩).2.photos.head?).map
        (fun r => (r.status, r.dominant_color, r.blurhash)))
      = some ("draft", none, none) := by
  have hphotos : (processPhotoFromR2
      ⟨true, true, true, false, false, false, false, fun _ => true, false, false, true,
        "#112233", "LEHV6nWB"⟩
      ⟨"sid", "photos/sid/original.jpg", "pid", "aid"⟩
      ⟨[], [], [], [], [], ["photos/sid/original.jpg"]⟩).2.photos
      = [baselinePhotoRow ⟨"sid", "photos/sid/original.jpg", "pid", "aid"⟩] := by
    rfl
  have h := derived_fields_invariant.1
    ⟨true, true, true, false, false, false, false, fun _ => true, false, false, true,
      "#112233", "LEHV6nWB"⟩
    ⟨"sid", "photos/sid/original.jpg", "pid", "aid"⟩
    ⟨[], [], [], [], [], ["photos/sid/original.jpg"]⟩
    (by simp)
    (baselinePhotoRow ⟨"sid", "photos/sid/original.jpg", "pid", "aid"⟩)
    (by rw [hphotos]; exact List.mem_singleton_self _)
    rfl
  have hdraft := h.2 rfl
  rw [hphotos]
  show some ((baselinePhotoRow ⟨"sid", "photos/sid/original.jpg", "pid", "aid"⟩).status,
      (baselinePhotoRow ⟨"sid", "photos/sid/original.jpg", "pid", "aid"⟩).dominant_color,
      (baselinePhotoRow ⟨"sid", "photos/sid/original.jpg", "pid", "aid"⟩).blurhash)
    = some ("draft", none, none)
  rw [hdraft.1, hdraft.2]
  rfl

/-- Concrete instantiation of C8: with every location field already
populated the task issues no external call and no update. -/
theorem executeGeocodeTask_frame_witness :
    executeGeocodeTask true
        (some ⟨some "United States", some "California", some "San Francisco", some "Golden Gate"⟩)
        (.success (some ⟨some "X", some "Y", some "Z", some "W"⟩) 1)
      = .ok ⟨false, none⟩ :=
  executeGeocodeTask_frame.2.2 true
    ⟨some "United States", some "California", some "San Francisco", some "Golden Gate"⟩
    (.success (some ⟨some "X", some "Y", some "Z", some "W"⟩) 1) (by decide)

end DogrodStudio
